import Mathlib

/-!
Verification of the SmartDeFi asset-backing precompile
(`core/vm/precompiles/assetbacking` and `core/state/backingpool`).

The development shallowly embeds the Go sources:

* bytes are `List Nat` (each entry a byte value),
* `*big.Int` values read from 32-byte storage words are non-negative, so
  storage holds `Nat` words; in-memory pool fields are `Int` because the Go
  code can drive them negative (`TotalBacking.Sub`) before persisting,
* `big.Int.Div` is Euclidean division with non-negative remainder, which is
  exactly `Int.ediv`, i.e. `/` on `ℤ`,
* `common.BigToHash b` stores the low 32 bytes of `b.Bytes()` (the byte
  representation of the *absolute value*), i.e. `b.natAbs % 2^256`,
* the state database (`vm.StateDB`) is modelled as association lists so the
  operational runs are executable,
* ABI encoding/decoding of call payloads is an external collaborator
  (out of scope per the design); operations are modelled on decoded inputs.

`crypto.Keccak256` is embedded concretely (legacy Keccak-256 with 0x01
padding, as used by go-ethereum) so that slot derivation and token-address
derivation are the real functions.
-/

set_option maxRecDepth 100000

/-! ## Keccak-256 (as `crypto.Keccak256` / `common.Keccak256Hash`) -/

/-- Rotate a 64-bit lane left by `n` (0 ≤ n < 64). -/
def rotl64 (x n : Nat) : Nat :=
  ((x <<< n) + (x >>> (64 - n))) % (2 ^ 64)

/-- Keccak rho rotation offsets as (lane index `x + 5*y`, offset) pairs,
generated from the standard position walk `(x, y) ↦ (y, (2x + 3y) mod 5)`
starting at `(1, 0)` with offset `(t+1)(t+2)/2 mod 64` at step `t`. -/
def keccakRhoPairs : List (Nat × Nat) :=
  ((List.range 24).foldl
    (fun acc t =>
      let x := acc.1.1
      let y := acc.1.2
      (((y, (2 * x + 3 * y) % 5), ((x + 5 * y, (t + 1) * (t + 2) / 2 % 64) :: acc.2))))
    ((1, 0), [])).2

/-- Keccak rho rotation offset of the lane with index `j = x + 5*y`
(lane 0 rotates by 0). -/
def keccakRho (j : Nat) : Nat :=
  ((keccakRhoPairs.find? fun e => e.1 = j).map (·.2)).getD 0

/-- Keccak round constants (the 24 iota words, written in decimal). -/
def keccakRC : List Nat :=
  [1, 32898, 9223372036854808714,
   9223372039002292224, 32907, 2147483649,
   9223372039002292353, 9223372036854808585, 138,
   136, 2147516425, 2147483658,
   2147516555, 9223372036854775947, 9223372036854808713,
   9223372036854808579, 9223372036854808578, 9223372036854775936,
   32778, 9223372039002259466, 9223372039002292353,
   9223372036854808704, 2147483649, 9223372039002292232]

/-- Keccak theta step on a 25-lane state. -/
def keccakTheta (A : List Nat) : List Nat :=
  let C := (List.range 5).map fun x =>
    A.getD x 0 ^^^ A.getD (x + 5) 0 ^^^ A.getD (x + 10) 0 ^^^
      A.getD (x + 15) 0 ^^^ A.getD (x + 20) 0
  let D := (List.range 5).map fun x =>
    C.getD ((x + 4) % 5) 0 ^^^ rotl64 (C.getD ((x + 1) % 5) 0) 1
  (List.range 25).map fun i => A.getD i 0 ^^^ D.getD (i % 5) 0

/-- Keccak rho and pi steps combined. -/
def keccakRhoPi (A : List Nat) : List Nat :=
  (List.range 25).map fun i =>
    let x := i % 5
    let y := i / 5
    let j := (x + 3 * y) % 5 + 5 * x
    rotl64 (A.getD j 0) (keccakRho j)

/-- Keccak chi step. -/
def keccakChi (A : List Nat) : List Nat :=
  (List.range 25).map fun i =>
    let x := i % 5
    let y := i / 5
    A.getD i 0 ^^^ ((A.getD ((x + 1) % 5 + 5 * y) 0 ^^^ (2 ^ 64 - 1)) &&&
      A.getD ((x + 2) % 5 + 5 * y) 0)

/-- One Keccak-f round (theta, rho, pi, chi, iota with round constant `rc`). -/
def keccakRound (A : List Nat) (rc : Nat) : List Nat :=
  let B := keccakChi (keccakRhoPi (keccakTheta A))
  (B.getD 0 0 ^^^ rc) :: B.drop 1

/-- The Keccak-f[1600] permutation (24 rounds). -/
def keccakF (A : List Nat) : List Nat :=
  keccakRC.foldl keccakRound A

/-- Legacy Keccak multi-rate padding (domain byte 0x01), rate 136 bytes. -/
def keccakPad (msg : List Nat) : List Nat :=
  let q := 136 - msg.length % 136
  if q = 1 then msg ++ [0x81]
  else msg ++ [0x01] ++ List.replicate (q - 2) 0 ++ [0x80]

/-- Interpret 8 bytes in little-endian order as a 64-bit lane. -/
def laneOfBytes (bs : List Nat) : Nat :=
  (List.range 8).foldl (fun acc k => acc + bs.getD k 0 * 256 ^ k) 0

/-- Absorb one 136-byte block into the sponge state. -/
def keccakAbsorb (S block : List Nat) : List Nat :=
  keccakF ((List.range 25).map fun i =>
    S.getD i 0 ^^^ (if i < 17 then laneOfBytes ((block.drop (8 * i)).take 8) else 0))

/-- Keccak-256 of a byte sequence, as a 32-byte digest. -/
def keccak256 (msg : List Nat) : List Nat :=
  let p := keccakPad msg
  let S := (List.range (p.length / 136)).foldl
    (fun s i => keccakAbsorb s ((p.drop (136 * i)).take 136)) (List.replicate 25 0)
  (List.range 32).map fun i => S.getD (i / 8) 0 / 256 ^ (i % 8) % 256

/-! ## Byte / word helpers (`common.Hash`, `common.Address`, `big.Int.Bytes`) -/

/-- Big-endian bytes to `Nat` (`hash.Big()`). -/
def natOfBytes (bs : List Nat) : Nat :=
  bs.foldl (fun acc b => acc * 256 + b) 0

/-- The 20 bytes of an address value, big-endian (`common.Address.Bytes`). -/
def addrBytes (a : Nat) : List Nat :=
  (List.range 20).map fun i => a / 256 ^ (19 - i) % 256

/-- The 32 bytes of a storage word, big-endian (`common.Hash.Bytes`);
keeps only the low 32 bytes of `n`, exactly as `common.BytesToHash`. -/
def wordBytes (n : Nat) : List Nat :=
  (List.range 32).map fun i => n / 256 ^ (31 - i) % 256

/-- Number of bytes in the minimal big-endian representation of `n < 2^256`
(the length of `big.Int.Bytes()`). -/
def byteLen (n : Nat) : Nat :=
  (List.range 32).foldl (fun acc i => if 256 ^ i ≤ n then i + 1 else acc) 0

/-- Minimal big-endian byte representation (`big.Int.Bytes()`, empty for 0). -/
def natBytesMin (n : Nat) : List Nat :=
  (List.range (byteLen n)).map fun i => n / 256 ^ (byteLen n - 1 - i) % 256

/-- `common.BigToHash` on a `big.Int`: the low 32 bytes of the byte
representation of the absolute value, as a `Nat` word. -/
def bigToHashWord (i : Int) : Nat :=
  i.natAbs % 2 ^ 256

/-! ## StateDB (the narrow `vm.StateDB` interface consumed by the core) -/

/-- The mutable state consumed through the host interface: per-account
storage words keyed by (account, slot-key word), native-coin balances,
transaction nonces and code sizes.  Modelled as association lists where the
most recent write is at the head. -/
structure StateDB where
  storage : List ((Nat × Nat) × Nat)
  balances : List (Nat × Int)
  nonces : List (Nat × Nat)
  codeSizes : List (Nat × Nat)
deriving Repr

/-- The all-empty state database. -/
def emptyState : StateDB := ⟨[], [], [], []⟩

/-- `stateDB.GetState(addr, key)`: a 32-byte word, zero if never written. -/
def getState (st : StateDB) (addr key : Nat) : Nat :=
  (((st.storage.find? fun e => e.1 = (addr, key)).map (·.2)).getD 0) % 2 ^ 256

/-- `stateDB.SetState(addr, key, value)`: stores a 32-byte word. -/
def setState (st : StateDB) (addr key value : Nat) : StateDB :=
  { st with storage := ((addr, key), value % 2 ^ 256) :: st.storage }

/-- `stateDB.GetBalance(addr)` (zero if absent). -/
def getBalance (st : StateDB) (addr : Nat) : Int :=
  ((st.balances.find? fun e => e.1 = addr).map (·.2)).getD 0

/-- `stateDB.AddBalance(addr, v)` (unchecked, as in the Go interface). -/
def addBalance (st : StateDB) (addr : Nat) (v : Int) : StateDB :=
  { st with balances := (addr, getBalance st addr + v) :: st.balances }

/-- `stateDB.SubBalance(addr, v)` (unchecked, as in the Go interface). -/
def subBalance (st : StateDB) (addr : Nat) (v : Int) : StateDB :=
  { st with balances := (addr, getBalance st addr - v) :: st.balances }

/-- `stateDB.GetNonce(addr)`: a uint64. -/
def getNonce (st : StateDB) (addr : Nat) : Nat :=
  (((st.nonces.find? fun e => e.1 = addr).map (·.2)).getD 0) % 2 ^ 64

/-- `stateDB.GetCodeSize(addr)` (zero if absent). -/
def getCodeSize (st : StateDB) (addr : Nat) : Nat :=
  ((st.codeSizes.find? fun e => e.1 = addr).map (·.2)).getD 0

/-! ## Backing pool store (`core/state/backingpool`) -/

/-- `backingpool.BackingPool`.  The reserved multi-asset arrays
(`BackingAssets`/`BackingAmounts`) are never read or persisted by the store
(`TODO` in the source) and are omitted. -/
structure BackingPool where
  tokenAddress : Nat
  backingAsset : Nat
  totalBacking : Int
  totalSupply : Int
  burnedSupply : Int
deriving Repr, DecidableEq

/-- ASCII bytes of the domain tag `"SmartDeFi-BackingPool"`. -/
def tagBackingPool : List Nat :=
  [83, 109, 97, 114, 116, 68, 101, 70, 105, 45, 66, 97, 99, 107, 105, 110,
   103, 80, 111, 111, 108]

/-- `backingpool.getSlotBase`: keccak of the token address bytes followed by
the domain tag, reduced modulo 1e10. -/
def getSlotBase (tokenAddress : Nat) : Nat :=
  natOfBytes (keccak256 (addrBytes tokenAddress ++ tagBackingPool)) % 10000000000

/-- `backingpool.GetBackingPool`.  Reads the four scalar fields at
`slotBase + {0,1,2,3}`.  Note the Go function always returns a populated
(possibly all-zero) record, never `nil`. -/
def getBackingPool (st : StateDB) (tokenAddress : Nat) : BackingPool :=
  let slotBase := getSlotBase tokenAddress
  { tokenAddress := tokenAddress
    backingAsset := getState st tokenAddress (slotBase + 3) % 2 ^ 160
    totalBacking := (getState st tokenAddress (slotBase + 0) : Int)
    totalSupply := (getState st tokenAddress (slotBase + 1) : Int)
    burnedSupply := (getState st tokenAddress (slotBase + 2) : Int) }

/-- `backingpool.SetBackingPool`: writes the four fields (each through
`common.BigToHash`) at `slotBase + {0,1,2,3}`. -/
def setBackingPool (st : StateDB) (pool : BackingPool) : StateDB :=
  let slotBase := getSlotBase pool.tokenAddress
  let s0 := setState st pool.tokenAddress (slotBase + 0) (bigToHashWord pool.totalBacking)
  let s1 := setState s0 pool.tokenAddress (slotBase + 1) (bigToHashWord pool.totalSupply)
  let s2 := setState s1 pool.tokenAddress (slotBase + 2) (bigToHashWord pool.burnedSupply)
  setState s2 pool.tokenAddress (slotBase + 3) (pool.backingAsset % 2 ^ 256)

/-- `BackingPool.CalculateFloorPrice`:
`totalBacking * 1e18 / (totalSupply - burnedSupply)` with the two zero
guards; division is `big.Int.Div` (Euclidean), i.e. `Int.ediv`. -/
def calculateFloorPrice (p : BackingPool) : Int :=
  if p.totalSupply = 0 then 0
  else
    let circulatingSupply := p.totalSupply - p.burnedSupply
    if circulatingSupply = 0 then 0
    else p.totalBacking * 1000000000000000000 / circulatingSupply

/-- `BackingPool.CalculateBackingForAmount`:
`amount * totalBacking / (totalSupply - burnedSupply)` with the two zero
guards; division is `big.Int.Div` (Euclidean), i.e. `Int.ediv`. -/
def calculateBackingForAmount (p : BackingPool) (amount : Int) : Int :=
  if p.totalSupply = 0 then 0
  else
    let circulatingSupply := p.totalSupply - p.burnedSupply
    if circulatingSupply = 0 then 0
    else amount * p.totalBacking / circulatingSupply

/-! ## Precompile (`core/vm/precompiles/assetbacking`) -/

/-- The precompile's own custodial address, `0x…0100`. -/
def precompileAddress : Nat := 0x100

/-- `assetbacking.TokenConfig`, as decoded from the ABI payload.  `name` and
`symbol` are the UTF-8 bytes of the decoded strings; the `uint256` fields
decode to non-negative integers below `2^256`, hence `Nat`. -/
structure TokenConfig where
  name : List Nat
  symbol : List Nat
  totalSupply : Nat
  backingAsset : Nat
  initialBacking : Nat
  fees : List Nat
  onlySB : Bool
  owner : Nat
  enableLGE : Bool
deriving Repr

/-- `assetbacking.validateTokenConfig`: positive supply, buy-side and
sell-side fee sums each at most 500, non-negative initial backing (the last
check cannot fail for a decoded `uint256`). -/
def validateTokenConfig (config : TokenConfig) : Bool :=
  if config.totalSupply = 0 then false
  else if 500 < (config.fees.take 6).sum ∨ 500 < ((config.fees.drop 6).take 6).sum then
    false
  else true

/-- ASCII bytes of the domain tag `"SmartDeFi-Fees"`. -/
def tagFees : List Nat :=
  [83, 109, 97, 114, 116, 68, 101, 70, 105, 45, 70, 101, 101, 115]

/-- `assetbacking.getFeeSlotBase`: keccak of the token address bytes followed
by the fee domain tag, reduced modulo 1e10. -/
def getFeeSlotBase (tokenAddress : Nat) : Nat :=
  natOfBytes (keccak256 (addrBytes tokenAddress ++ tagFees)) % 10000000000

/-- `assetbacking.storeFeeStructure`: writes the 12 fee entries at
`feeSlotBase + 0 … + 11` and the `onlySB` flag at `feeSlotBase + 12`
(the fixed 12-iteration loop is unrolled). -/
def storeFeeStructure (st : StateDB) (tokenAddress : Nat) (fees : List Nat)
    (onlySB : Bool) : StateDB :=
  let slotBase := getFeeSlotBase tokenAddress
  let s := setState st tokenAddress (slotBase + 0) (fees.getD 0 0)
  let s := setState s tokenAddress (slotBase + 1) (fees.getD 1 0)
  let s := setState s tokenAddress (slotBase + 2) (fees.getD 2 0)
  let s := setState s tokenAddress (slotBase + 3) (fees.getD 3 0)
  let s := setState s tokenAddress (slotBase + 4) (fees.getD 4 0)
  let s := setState s tokenAddress (slotBase + 5) (fees.getD 5 0)
  let s := setState s tokenAddress (slotBase + 6) (fees.getD 6 0)
  let s := setState s tokenAddress (slotBase + 7) (fees.getD 7 0)
  let s := setState s tokenAddress (slotBase + 8) (fees.getD 8 0)
  let s := setState s tokenAddress (slotBase + 9) (fees.getD 9 0)
  let s := setState s tokenAddress (slotBase + 10) (fees.getD 10 0)
  let s := setState s tokenAddress (slotBase + 11) (fees.getD 11 0)
  setState s tokenAddress (slotBase + 12) (if onlySB then 1 else 0)

/-- The nonce word hashed during address derivation:
`common.BigToHash(big.NewInt(int64(nonce))).Bytes()`.  The uint64 nonce is
cast to a signed 64-bit integer (wrapping), and `BigToHash` keeps the bytes
of the *absolute value*. -/
def nonceWordBytes (nonce : Nat) : List Nat :=
  let w : Int :=
    if nonce % 2 ^ 64 < 2 ^ 63 then (nonce % 2 ^ 64 : Nat)
    else (nonce % 2 ^ 64 : Nat) - 2 ^ 64
  wordBytes w.natAbs

/-- The token-address derivation inside `createAssetBackedToken`:
first 20 bytes of
`Keccak256(caller.Bytes() ++ BigToHash(int64(nonce)).Bytes() ++ name ++
symbol ++ totalSupply.Bytes())`. -/
def deriveTokenAddress (caller nonce : Nat) (config : TokenConfig) : Nat :=
  natOfBytes ((keccak256 (addrBytes caller ++ nonceWordBytes nonce ++
    config.name ++ config.symbol ++ natBytesMin config.totalSupply)).take 20)

/-- `assetbacking.createAssetBackedToken` on a decoded config.  `none` models
the reverted operation (no state committed); on success the new state and the
new token address are returned.  In the Go code every state mutation occurs
after the last guard, so a revert leaves the state untouched. -/
def createAssetBackedToken (st : StateDB) (caller : Nat) (config : TokenConfig)
    (readOnly : Bool) : Option (StateDB × Nat) :=
  if readOnly then none
  else if caller = 0 then none
  else if validateTokenConfig config = false then none
  else if config.backingAsset ≠ 0 then none
  else if 0 < config.initialBacking ∧ getBalance st caller < (config.initialBacking : Int) then
    none
  else
    let nonce := getNonce st caller
    let tokenAddress := deriveTokenAddress caller nonce config
    if 0 < getCodeSize st tokenAddress then none
    else
      let pool : BackingPool :=
        { tokenAddress := tokenAddress
          backingAsset := 0
          totalBacking := (config.initialBacking : Int)
          totalSupply := (config.totalSupply : Int)
          burnedSupply := 0 }
      let st1 := setBackingPool st pool
      let st2 :=
        if 0 < config.initialBacking then
          subBalance (addBalance st1 precompileAddress (config.initialBacking : Int))
            caller (config.initialBacking : Int)
        else st1
      let st3 := storeFeeStructure st2 tokenAddress config.fees config.onlySB
      some (st3, tokenAddress)

/-- `assetbacking.getBacking` on decoded inputs.  `GetBackingPool` always
returns a populated record, so the `pool == nil` guard in the source can
never fire and the operation always succeeds (the only error exit is ABI
decoding, which is outside this core). -/
def getBackingOp (st : StateDB) (token amount : Nat) : Option Int :=
  some (calculateBackingForAmount (getBackingPool st token) (amount : Int))

/-- `assetbacking.getFloorPrice` on decoded inputs; as with `getBacking`,
the `pool == nil` guard can never fire. -/
def getFloorPriceOp (st : StateDB) (token : Nat) : Option Int :=
  some (calculateFloorPrice (getBackingPool st token))

/-- `assetbacking.burnAndRecover` on decoded inputs: computes the redemption
from the current pool, increments `burnedSupply`, decrements `totalBacking`,
persists the pool, then moves the recovered native coin from the precompile's
custodial balance to the caller. -/
def burnAndRecover (st : StateDB) (caller token amount : Nat)
    (readOnly : Bool) : Option (StateDB × Int) :=
  if readOnly then none
  else
    let pool := getBackingPool st token
    let recoveredAmount := calculateBackingForAmount pool (amount : Int)
    let pool' := { pool with
      burnedSupply := pool.burnedSupply + (amount : Int)
      totalBacking := pool.totalBacking - recoveredAmount }
    let st1 := setBackingPool st pool'
    let st2 :=
      if 0 < recoveredAmount then
        addBalance (subBalance st1 precompileAddress recoveredAmount) caller recoveredAmount
      else st1
    some (st2, recoveredAmount)

/-! ## Spec-side arithmetic and derivation (the claims' wording, stated for
refinement comparison with the code-side functions above) -/

/-- The claims' description of `backingForAmount`: zero when `totalSupply`
or the circulating supply is zero, otherwise the exact *floor* division
`⌊amount * totalBacking / circulatingSupply⌋`. -/
def backingForAmountSpec (p : BackingPool) (amount : Int) : Int :=
  if p.totalSupply = 0 ∨ p.totalSupply - p.burnedSupply = 0 then 0
  else Int.fdiv (amount * p.totalBacking) (p.totalSupply - p.burnedSupply)

/-- The claims' description of `floorPrice`: zero when `totalSupply` or the
circulating supply is zero, otherwise the exact *floor* division
`⌊totalBacking * 10^18 / circulatingSupply⌋`. -/
def floorPriceSpec (p : BackingPool) : Int :=
  if p.totalSupply = 0 ∨ p.totalSupply - p.burnedSupply = 0 then 0
  else Int.fdiv (p.totalBacking * 1000000000000000000) (p.totalSupply - p.burnedSupply)

/-- The claims' description of the token-address derivation: first 20 bytes
of the hash of creator bytes, the 32-byte big-endian word of the nonce, the
name and symbol bytes, and the minimal total-supply bytes. -/
def deriveAddressSpec (creator nonce : Nat) (config : TokenConfig) : Nat :=
  natOfBytes ((keccak256 (addrBytes creator ++ wordBytes nonce ++
    config.name ++ config.symbol ++ natBytesMin config.totalSupply)).take 20)

/-! ## Pool states reachable through the dispatcher -/

/-- A pool state is reachable when it was produced by a successful creation
and mutated only by successful `burnAndRecover` calls (the two read-only
operations do not change state). -/
inductive ReachablePool : StateDB → Nat → Prop
  | created (st : StateDB) (caller : Nat) (cfg : TokenConfig) (st' : StateDB) (a : Nat) :
      createAssetBackedToken st caller cfg false = some (st', a) → ReachablePool st' a
  | burned (st : StateDB) (a caller amount : Nat) (st' : StateDB) (out : Int) :
      ReachablePool st a → burnAndRecover st caller a amount false = some (st', out) →
      ReachablePool st' a

/-! ## Concrete inputs used by witnesses and counterexamples -/

/-- A minimal valid configuration: supply 1, native-coin backing asset,
no initial backing, all-zero fees. -/
def cfgA : TokenConfig :=
  { name := [], symbol := [], totalSupply := 1, backingAsset := 0,
    initialBacking := 0, fees := [0, 0, 0, 0, 0, 0, 0, 0, 0, 0, 0, 0],
    onlySB := false, owner := 1, enableLGE := false }

/-- `cfgA` with a non-zero (non-native) backing asset. -/
def cfgB : TokenConfig :=
  { name := [], symbol := [], totalSupply := 1,
    backingAsset := 0x1111111111111111111111111111111111111111,
    initialBacking := 0, fees := [0, 0, 0, 0, 0, 0, 0, 0, 0, 0, 0, 0],
    onlySB := false, owner := 1, enableLGE := false }

/-- `cfgA` with a positive initial backing (caller balances are all zero in
`emptyState`). -/
def cfgC : TokenConfig :=
  { name := [], symbol := [], totalSupply := 1, backingAsset := 0,
    initialBacking := 1, fees := [0, 0, 0, 0, 0, 0, 0, 0, 0, 0, 0, 0],
    onlySB := false, owner := 1, enableLGE := false }

/-- The state and token address produced by creating `cfgA` from caller 1 on
the empty state (the creation succeeds, so `getD` returns its result). -/
def createRunA : StateDB × Nat :=
  (createAssetBackedToken emptyState 1 cfgA false).getD (emptyState, 0)

/-- Burning 1 token of the `createRunA` pool (within circulating supply). -/
def burnRun1 : StateDB × Int :=
  (burnAndRecover createRunA.1 1 createRunA.2 1 false).getD (emptyState, 0)

/-- Burning 2 tokens of the `createRunA` pool (more than the total supply
of 1 — the dispatcher accepts it). -/
def burnRun2 : StateDB × Int :=
  (burnAndRecover createRunA.1 1 createRunA.2 2 false).getD (emptyState, 0)

/-- A stored pool at token address 7 with backing 1, supply 2, no burns. -/
def poolSt7 : StateDB := setBackingPool emptyState ⟨7, 0, 1, 2, 0⟩

/-- Burning 4 tokens of the `poolSt7` pool (more than the circulating
supply of 2; the computed redemption 2 exceeds the backing 1). -/
def burn7x4 : StateDB × Int :=
  (burnAndRecover poolSt7 5 7 4 false).getD (emptyState, 0)

/-- Burning 1 token of the `poolSt7` pool (within circulating supply). -/
def burn7x1 : StateDB × Int :=
  (burnAndRecover poolSt7 5 7 1 false).getD (emptyState, 0)

/-! # Theorems -/

/-- Sanity: the well-known digest of the empty input,
`keccak256("") = c5d2…a470`. -/
theorem keccak256_nil :
    keccak256 [] =
      [0xc5, 0xd2, 0x46, 0x01, 0x86, 0xf7, 0x23, 0x3c, 0x92, 0x7e, 0x7d, 0xb2,
       0xdc, 0xc7, 0x03, 0xc0, 0xe5, 0x00, 0xb6, 0x53, 0xca, 0x82, 0x27, 0x3b,
       0x7b, 0xfa, 0xd8, 0x04, 0x5d, 0x85, 0xa4, 0x70] := by decide

/-! ## Storage reasoning helpers -/

/-- Pairs with distinct second components are distinct. -/
theorem pair_ne_snd {a b c d : Nat} (h : b ≠ d) : (a, b) ≠ (c, d) :=
  fun hc => h (congrArg Prod.snd hc)

/-- Reading the key just written returns the stored (truncated) value. -/
theorem getState_setState_eq (st : StateDB) (a k v : Nat) :
    getState (setState st a k v) a k = v % 2 ^ 256 := by
  simp [getState, setState, List.find?]

/-- Reading any other key is unaffected by a write. -/
theorem getState_setState_ne (st : StateDB) (a k v a' k' : Nat)
    (h : (a, k) ≠ (a', k')) :
    getState (setState st a k v) a' k' = getState st a' k' := by
  simp [getState, setState, List.find?, h]

/-- Every storage word is a 32-byte value. -/
theorem getState_lt (st : StateDB) (a k : Nat) : getState st a k < 2 ^ 256 :=
  Nat.mod_lt _ (by norm_num)

theorem getBackingPool_tokenAddress (st : StateDB) (t : Nat) :
    (getBackingPool st t).tokenAddress = t := rfl

/-- Pool fields read from storage are non-negative. -/
theorem getBackingPool_nonneg (st : StateDB) (t : Nat) :
    0 ≤ (getBackingPool st t).totalBacking ∧ 0 ≤ (getBackingPool st t).totalSupply ∧
      0 ≤ (getBackingPool st t).burnedSupply :=
  ⟨Int.ofNat_nonneg _, Int.ofNat_nonneg _, Int.ofNat_nonneg _⟩

/-- Pool fields read from storage are below `2^256`. -/
theorem getBackingPool_lt (st : StateDB) (t : Nat) :
    (getBackingPool st t).totalBacking < 2 ^ 256 ∧
      (getBackingPool st t).totalSupply < 2 ^ 256 ∧
      (getBackingPool st t).burnedSupply < 2 ^ 256 := by
  refine ⟨?_, ?_, ?_⟩ <;>
    simpa [getBackingPool] using Int.ofNat_lt.mpr (getState_lt _ _ _)

/-- `GetBackingPool` only reads storage, so balance updates are invisible. -/
theorem getBackingPool_addBalance (st : StateDB) (a : Nat) (v : Int) (t : Nat) :
    getBackingPool (addBalance st a v) t = getBackingPool st t := rfl

theorem getBackingPool_subBalance (st : StateDB) (a : Nat) (v : Int) (t : Nat) :
    getBackingPool (subBalance st a v) t = getBackingPool st t := rfl

/-- Round trip, `totalBacking` field. -/
theorem get_set_totalBacking (st : StateDB) (p : BackingPool) :
    (getBackingPool (setBackingPool st p) p.tokenAddress).totalBacking =
      (bigToHashWord p.totalBacking : Int) := by
  simp only [getBackingPool, setBackingPool]
  rw [getState_setState_ne, getState_setState_ne, getState_setState_ne,
    getState_setState_eq]
  · norm_cast
    unfold bigToHashWord
    omega
  all_goals exact pair_ne_snd (by omega)

/-- Round trip, `totalSupply` field. -/
theorem get_set_totalSupply (st : StateDB) (p : BackingPool) :
    (getBackingPool (setBackingPool st p) p.tokenAddress).totalSupply =
      (bigToHashWord p.totalSupply : Int) := by
  simp only [getBackingPool, setBackingPool]
  rw [getState_setState_ne, getState_setState_ne, getState_setState_eq]
  · norm_cast
    unfold bigToHashWord
    omega
  all_goals exact pair_ne_snd (by omega)

/-- Round trip, `burnedSupply` field. -/
theorem get_set_burnedSupply (st : StateDB) (p : BackingPool) :
    (getBackingPool (setBackingPool st p) p.tokenAddress).burnedSupply =
      (bigToHashWord p.burnedSupply : Int) := by
  simp only [getBackingPool, setBackingPool]
  rw [getState_setState_ne, getState_setState_eq]
  · norm_cast
    unfold bigToHashWord
    omega
  all_goals exact pair_ne_snd (by omega)

/-- Round trip, `backingAsset` field. -/
theorem get_set_backingAsset (st : StateDB) (p : BackingPool) :
    (getBackingPool (setBackingPool st p) p.tokenAddress).backingAsset =
      p.backingAsset % 2 ^ 256 % 2 ^ 160 := by
  simp only [getBackingPool, setBackingPool]
  rw [getState_setState_eq]
  omega

/-! ## Operation inversion helpers -/

theorem getState_addBalance (st : StateDB) (b : Nat) (v : Int) (a k : Nat) :
    getState (addBalance st b v) a k = getState st a k := rfl

theorem getState_subBalance (st : StateDB) (b : Nat) (v : Int) (a k : Nat) :
    getState (subBalance st b v) a k = getState st a k := rfl

theorem getState_storeFeeStructure (st : StateDB) (tok : Nat) (fees : List Nat)
    (o : Bool) (a' k : Nat)
    (h : ∀ i, i < 13 → (tok, getFeeSlotBase tok + i) ≠ (a', k)) :
    getState (storeFeeStructure st tok fees o) a' k = getState st a' k := by
  simp only [storeFeeStructure]
  rw [getState_setState_ne, getState_setState_ne, getState_setState_ne,
    getState_setState_ne, getState_setState_ne, getState_setState_ne,
    getState_setState_ne, getState_setState_ne, getState_setState_ne,
    getState_setState_ne, getState_setState_ne, getState_setState_ne,
    getState_setState_ne]
  all_goals exact h _ (by omega)

theorem getBackingPool_storeFeeStructure (st : StateDB) (tok : Nat)
    (fees : List Nat) (o : Bool) (t : Nat)
    (h : ∀ i, i < 13 → ∀ j, j < 4 → (tok, getFeeSlotBase tok + i) ≠ (t, getSlotBase t + j)) :
    getBackingPool (storeFeeStructure st tok fees o) t = getBackingPool st t := by
  simp only [getBackingPool]
  rw [getState_storeFeeStructure, getState_storeFeeStructure,
    getState_storeFeeStructure, getState_storeFeeStructure]
  · exact fun i hi => h i hi 2 (by omega)
  · exact fun i hi => h i hi 1 (by omega)
  · exact fun i hi => h i hi 0 (by omega)
  · exact fun i hi => h i hi 3 (by omega)

theorem create_inv (st : StateDB) (caller : Nat) (cfg : TokenConfig) (ro : Bool)
    (st' : StateDB) (a : Nat)
    (h : createAssetBackedToken st caller cfg ro = some (st', a)) :
    a = deriveTokenAddress caller (getNonce st caller) cfg ∧
    ((∀ i, i < 13 → ∀ j, j < 4 → getFeeSlotBase a + i ≠ getSlotBase a + j) →
      (getBackingPool st' a).burnedSupply = 0 ∧
      (getBackingPool st' a).totalBacking = ((cfg.initialBacking % 2 ^ 256 : Nat) : Int) ∧
      (getBackingPool st' a).totalSupply = ((cfg.totalSupply % 2 ^ 256 : Nat) : Int)) := by
  simp only [createAssetBackedToken] at h
  split at h
  · exact absurd h (by simp)
  split at h
  · exact absurd h (by simp)
  split at h
  · exact absurd h (by simp)
  split at h
  · exact absurd h (by simp)
  split at h
  · exact absurd h (by simp)
  split at h
  · exact absurd h (by simp)
  rw [Option.some.injEq, Prod.mk.injEq] at h
  obtain ⟨hst, ha⟩ := h
  subst hst
  refine ⟨ha.symm, ?_⟩
  intro hdisj
  subst ha
  rw [getBackingPool_storeFeeStructure _ _ _ _ _
    (fun i hi j hj => pair_ne_snd (hdisj i hi j hj))]
  rw [apply_ite (fun s => getBackingPool s (deriveTokenAddress caller (getNonce st caller) cfg))]
  simp only [getBackingPool_addBalance, getBackingPool_subBalance, ite_self]
  refine ⟨?_, ?_, ?_⟩
  · simpa [bigToHashWord] using get_set_burnedSupply st
      ⟨deriveTokenAddress caller (getNonce st caller) cfg, 0,
        (cfg.initialBacking : Int), (cfg.totalSupply : Int), 0⟩
  · simpa [bigToHashWord] using get_set_totalBacking st
      ⟨deriveTokenAddress caller (getNonce st caller) cfg, 0,
        (cfg.initialBacking : Int), (cfg.totalSupply : Int), 0⟩
  · simpa [bigToHashWord] using get_set_totalSupply st
      ⟨deriveTokenAddress caller (getNonce st caller) cfg, 0,
        (cfg.initialBacking : Int), (cfg.totalSupply : Int), 0⟩

theorem burnAndRecover_inv (st : StateDB) (caller token amount : Nat)
    (st' : StateDB) (out : Int)
    (h : burnAndRecover st caller token amount false = some (st', out)) :
    out = calculateBackingForAmount (getBackingPool st token) (amount : Int) ∧
    (getBackingPool st' token).burnedSupply =
      (bigToHashWord ((getBackingPool st token).burnedSupply + (amount : Int)) : Int) ∧
    (getBackingPool st' token).totalBacking =
      (bigToHashWord ((getBackingPool st token).totalBacking - out) : Int) ∧
    (getBackingPool st' token).totalSupply =
      (bigToHashWord ((getBackingPool st token).totalSupply) : Int) := by
  simp only [burnAndRecover, Bool.false_eq_true, if_false] at h
  rw [Option.some.injEq, Prod.mk.injEq] at h
  obtain ⟨hst, hout⟩ := h
  subst hst
  subst hout
  refine ⟨rfl, ?_, ?_, ?_⟩ <;>
    rw [apply_ite (fun s => getBackingPool s token)] <;>
    simp only [getBackingPool_addBalance, getBackingPool_subBalance, ite_self]
  · simpa [bigToHashWord] using get_set_burnedSupply st
      { getBackingPool st token with
        burnedSupply := (getBackingPool st token).burnedSupply + (amount : Int)
        totalBacking := (getBackingPool st token).totalBacking -
          calculateBackingForAmount (getBackingPool st token) (amount : Int) }
  · simpa [bigToHashWord] using get_set_totalBacking st
      { getBackingPool st token with
        burnedSupply := (getBackingPool st token).burnedSupply + (amount : Int)
        totalBacking := (getBackingPool st token).totalBacking -
          calculateBackingForAmount (getBackingPool st token) (amount : Int) }
  · simpa [bigToHashWord] using get_set_totalSupply st
      { getBackingPool st token with
        burnedSupply := (getBackingPool st token).burnedSupply + (amount : Int)
        totalBacking := (getBackingPool st token).totalBacking -
          calculateBackingForAmount (getBackingPool st token) (amount : Int) }

/-! ## Redemption bounds -/

/-- When the burn amount fits inside the circulating supply, the computed
redemption is between 0 and the pool's `totalBacking`. -/
theorem calc_backing_bounds (st : StateDB) (token amount : Nat)
    (h : (getBackingPool st token).burnedSupply + (amount : Int) ≤
      (getBackingPool st token).totalSupply) :
    0 ≤ calculateBackingForAmount (getBackingPool st token) (amount : Int) ∧
    calculateBackingForAmount (getBackingPool st token) (amount : Int) ≤
      (getBackingPool st token).totalBacking := by
  obtain ⟨htb, hts, hbs⟩ := getBackingPool_nonneg st token
  set p := getBackingPool st token with hp
  unfold calculateBackingForAmount
  by_cases h1 : p.totalSupply = 0
  · simp [h1, htb]
  by_cases h2 : p.totalSupply - p.burnedSupply = 0
  · simp [h1, h2, htb]
  simp only [h1, h2, if_false, ite_false]
  have hpos : (0 : Int) < p.totalSupply - p.burnedSupply := by omega
  constructor
  · exact Int.ediv_nonneg (by positivity) (by omega)
  · calc (amount : Int) * p.totalBacking / (p.totalSupply - p.burnedSupply)
        ≤ (p.totalSupply - p.burnedSupply) * p.totalBacking /
            (p.totalSupply - p.burnedSupply) :=
          Int.ediv_le_ediv hpos (mul_le_mul_of_nonneg_right (by omega) htb)
      _ = p.totalBacking := Int.mul_ediv_cancel_left _ (by omega)

/-! ## Claims -/

/-- C4 (counterexample): the claim states that `backingForAmount` always
equals the guarded floor-division formula.  At the pool
`{totalBacking 1, totalSupply 1, burnedSupply 3}` (reachable, since burns
above the circulating supply are accepted) the circulating supply is `-2`;
Go's `big.Int.Div` is Euclidean division, which gives 0, while floor
division gives -1. -/
theorem backingForAmount_claim_false :
    calculateBackingForAmount ⟨0, 0, 1, 1, 3⟩ (1 : Int) ≠
      backingForAmountSpec ⟨0, 0, 1, 1, 3⟩ (1 : Int) := by decide

/-- C4 (amended): for every pool whose stored fields satisfy
`burnedSupply ≤ totalSupply`, `backingForAmount` equals the claimed guarded
floor-division formula (the guards make the amount-0 and zero-supply cases
return 0 and no division by zero occurs); in particular amount 0 yields 0. -/
theorem backingForAmount_amended (tok asset tb ts bs amount : Nat) (h : bs ≤ ts) :
    calculateBackingForAmount ⟨tok, asset, (tb : Int), (ts : Int), (bs : Int)⟩ (amount : Int) =
      backingForAmountSpec ⟨tok, asset, (tb : Int), (ts : Int), (bs : Int)⟩ (amount : Int) ∧
    ((amount : Int) = 0 →
      calculateBackingForAmount ⟨tok, asset, (tb : Int), (ts : Int), (bs : Int)⟩
        (amount : Int) = 0) := by
  unfold calculateBackingForAmount backingForAmountSpec
  constructor
  · by_cases h1 : (ts : Int) = 0
    · simp [h1]
    by_cases h2 : (ts : Int) - (bs : Int) = 0
    · simp [h1, h2]
    · simp only [h1, h2, if_neg, or_self, if_false, or_false, ite_false]
      rw [Int.fdiv_eq_ediv _ (by omega)]
  · intro h0
    rw [h0]
    by_cases h1 : (ts : Int) = 0
    · simp [h1]
    by_cases h2 : (ts : Int) - (bs : Int) = 0
    · simp [h1, h2]
    · simp [h1, h2]

/-- Witness for `backingForAmount_amended` at the pool
`{totalBacking 5, totalSupply 10, burnedSupply 2}` and amount 3. -/
theorem backingForAmount_amended_witness :
    calculateBackingForAmount ⟨0, 0, 5, 10, 2⟩ (3 : Int) =
      backingForAmountSpec ⟨0, 0, 5, 10, 2⟩ (3 : Int) ∧
    ((3 : Int) = 0 → calculateBackingForAmount ⟨0, 0, 5, 10, 2⟩ (3 : Int) = 0) :=
  backingForAmount_amended 0 0 5 10 2 3 (by decide)

/-- C5 (counterexample): the claim states that `floorPrice` always equals
the guarded floor-division formula.  At the pool
`{totalBacking 1, totalSupply 1, burnedSupply 4}` the circulating supply is
`-3`; the code's Euclidean division gives -333333333333333333 while floor
division gives -333333333333333334. -/
theorem floorPrice_claim_false :
    calculateFloorPrice ⟨0, 0, 1, 1, 4⟩ ≠ floorPriceSpec ⟨0, 0, 1, 1, 4⟩ := by decide

/-- C5 (amended): for every pool whose stored fields satisfy
`burnedSupply ≤ totalSupply`, `floorPrice` equals the claimed guarded
floor-division formula (zero when `totalSupply` or the circulating supply is
zero, never dividing by zero). -/
theorem floorPrice_amended (tok asset tb ts bs : Nat) (h : bs ≤ ts) :
    calculateFloorPrice ⟨tok, asset, (tb : Int), (ts : Int), (bs : Int)⟩ =
      floorPriceSpec ⟨tok, asset, (tb : Int), (ts : Int), (bs : Int)⟩ := by
  unfold calculateFloorPrice floorPriceSpec
  by_cases h1 : (ts : Int) = 0
  · simp [h1]
  by_cases h2 : (ts : Int) - (bs : Int) = 0
  · simp [h1, h2]
  · simp only [h1, h2, or_self, if_false, or_false, ite_false]
    rw [Int.fdiv_eq_ediv _ (by omega)]

/-- Witness for `floorPrice_amended` at the pool
`{totalBacking 5, totalSupply 10, burnedSupply 2}`. -/
theorem floorPrice_amended_witness :
    calculateFloorPrice ⟨0, 0, 5, 10, 2⟩ = floorPriceSpec ⟨0, 0, 5, 10, 2⟩ :=
  floorPrice_amended 0 0 5 10 2 (by decide)

/-- C6 (counterexample): the claim states that increasing `burnedSupply`
(supply unchanged) never decreases `floorPrice`.  Raising `burnedSupply`
from 0 to 2 in the pool `{totalBacking 1, totalSupply 2}` drops the floor
price from 5*10^17 to 0 (the circulating supply reaches 0 and the guard
returns 0). -/
theorem floorPrice_monotone_claim_false :
    calculateFloorPrice ⟨0, 0, 1, 2, 2⟩ < calculateFloorPrice ⟨0, 0, 1, 2, 0⟩ := by decide

/-- C6 (amended): for pools with `burnedSupply ≤ totalSupply`, increasing
`totalBacking` never decreases `floorPrice`; increasing `burnedSupply`
never decreases `floorPrice` as long as the increased `burnedSupply` stays
strictly below `totalSupply` (once it reaches `totalSupply` the price drops
to 0). -/
theorem floorPrice_monotone_amended :
    (∀ tok asset tb ts bs tb' : Nat, bs ≤ ts → tb ≤ tb' →
      calculateFloorPrice ⟨tok, asset, (tb : Int), (ts : Int), (bs : Int)⟩ ≤
        calculateFloorPrice ⟨tok, asset, (tb' : Int), (ts : Int), (bs : Int)⟩) ∧
    (∀ tok asset tb ts bs bs' : Nat, bs ≤ bs' → bs' < ts →
      calculateFloorPrice ⟨tok, asset, (tb : Int), (ts : Int), (bs : Int)⟩ ≤
        calculateFloorPrice ⟨tok, asset, (tb : Int), (ts : Int), (bs' : Int)⟩) := by
  constructor
  · intro tok asset tb ts bs tb' hbs htb
    unfold calculateFloorPrice
    by_cases h1 : (ts : Int) = 0
    · simp [h1]
    by_cases h2 : (ts : Int) - (bs : Int) = 0
    · simp [h1, h2]
    simp only [h1, h2, if_false, ite_false]
    have hpos : (0 : Int) < (ts : Int) - (bs : Int) := by omega
    exact Int.ediv_le_ediv hpos
      (mul_le_mul_of_nonneg_right (by exact_mod_cast htb) (by norm_num))
  · intro tok asset tb ts bs bs' hbs hts
    unfold calculateFloorPrice
    have h1 : (ts : Int) ≠ 0 := by omega
    have h2 : (ts : Int) - (bs : Int) ≠ 0 := by omega
    have h2' : (ts : Int) - (bs' : Int) ≠ 0 := by omega
    simp only [h1, h2, h2', if_false, ite_false]
    have hpos' : (0 : Int) < (ts : Int) - (bs' : Int) := by omega
    have hnn : (0 : Int) ≤ (tb : Int) * 1000000000000000000 := by positivity
    have hq : (0 : Int) ≤ (tb : Int) * 1000000000000000000 / ((ts : Int) - (bs : Int)) :=
      Int.ediv_nonneg hnn (by omega)
    rw [Int.le_ediv_iff_mul_le hpos']
    calc (tb : Int) * 1000000000000000000 / ((ts : Int) - (bs : Int)) *
          ((ts : Int) - (bs' : Int))
        ≤ (tb : Int) * 1000000000000000000 / ((ts : Int) - (bs : Int)) *
            ((ts : Int) - (bs : Int)) := mul_le_mul_of_nonneg_left (by omega) hq
      _ ≤ (tb : Int) * 1000000000000000000 := Int.ediv_mul_le _ (by omega)

/-- Witness for `floorPrice_monotone_amended`: backing 5 → 7 and burns
2 → 4 in the pool `{totalBacking 5, totalSupply 10, burnedSupply 2}`. -/
theorem floorPrice_monotone_amended_witness :
    calculateFloorPrice ⟨0, 0, 5, 10, 2⟩ ≤ calculateFloorPrice ⟨0, 0, 7, 10, 2⟩ ∧
    calculateFloorPrice ⟨0, 0, 5, 10, 2⟩ ≤ calculateFloorPrice ⟨0, 0, 5, 10, 4⟩ :=
  ⟨floorPrice_monotone_amended.1 0 0 5 10 2 7 (by decide) (by decide),
   floorPrice_monotone_amended.2 0 0 5 10 2 4 (by decide) (by decide)⟩

/-- C1 (code evidence): the claim states that `getBacking` and
`getFloorPrice` on a token with no pool are rejected.  In the code,
`GetBackingPool` always returns a populated (all-zero) record and never
`nil`, so the absence guard is dead: on the empty state both queries on the
test suite's non-existent token succeed with result 0 instead of failing
(the repo's own `TestInvalidInputs` expects an error here). -/
theorem missing_pool_queries_succeed :
    getBackingOp emptyState 0x9999999999999999999999999999999999999999 1000 = some 0 ∧
    getFloorPriceOp emptyState 0x9999999999999999999999999999999999999999 = some 0 := by
  constructor <;> decide

/-- C7: creation with any non-zero `backingAsset` is rejected, whatever the
caller, prior state, other configuration fields or read-only flag; the
returned `none` carries no state, and in the source every mutation sits
after this guard, so nothing is written. -/
theorem nonzero_backingAsset_rejected (st : StateDB) (caller : Nat)
    (cfg : TokenConfig) (ro : Bool) (h : cfg.backingAsset ≠ 0) :
    createAssetBackedToken st caller cfg ro = none := by
  unfold createAssetBackedToken
  split
  · rfl
  split
  · rfl
  split
  · rfl
  rfl

/-- Witness for `nonzero_backingAsset_rejected`: the otherwise-valid `cfgB`
with backing asset `0x1111…1111`. -/
theorem nonzero_backingAsset_rejected_witness :
    createAssetBackedToken emptyState 1 cfgB false = none :=
  nonzero_backingAsset_rejected emptyState 1 cfgB false (by decide)

/-- C8: creation with `initialBacking > 0` and caller balance strictly
below it is rejected; the returned `none` carries no state, and in the
source every mutation sits after this guard, so no pool, fee slot or
balance is written. -/
theorem insufficient_balance_rejected (st : StateDB) (caller : Nat)
    (cfg : TokenConfig) (ro : Bool) (h1 : 0 < cfg.initialBacking)
    (h2 : getBalance st caller < (cfg.initialBacking : Int)) :
    createAssetBackedToken st caller cfg ro = none := by
  unfold createAssetBackedToken
  split
  · rfl
  split
  · rfl
  split
  · rfl
  split
  · rfl
  rw [if_pos ⟨h1, h2⟩]

/-- Witness for `insufficient_balance_rejected`: `cfgC` asks to lock 1 unit
while caller 1 has balance 0 in the empty state. -/
theorem insufficient_balance_rejected_witness :
    createAssetBackedToken emptyState 1 cfgC false = none :=
  insufficient_balance_rejected emptyState 1 cfgC false (by decide) (by decide)

/-- C9 (counterexample): the claim describes the hashed nonce bytes as the
big-endian encoding of the creator's nonce.  The code hashes
`BigToHash(big.NewInt(int64(nonce)))`: the uint64 nonce is cast to a
*signed* 64-bit integer and `big.Int.Bytes` keeps the absolute value, so at
nonce `2^64 - 1` the code hashes the word 1 instead of `2^64 - 1` and the
derived address differs from the described one. -/
theorem derive_address_claim_false :
    deriveTokenAddress 1 (2 ^ 64 - 1) cfgA ≠ deriveAddressSpec 1 (2 ^ 64 - 1) cfgA := by
  decide

/-- C9 (amended): for nonces below `2^63` (where the int64 cast is the
identity) the derived token address is exactly the first 20 bytes of the
hash of creator bytes, 32-byte big-endian nonce word, name, symbol and
total-supply bytes, as claimed; and the derivation is deterministic — two
successful creations from identical state and inputs return identical
addresses.  For nonces of `2^63` and above the code hashes the absolute
value of the wrapped signed nonce instead. -/
theorem derive_address_amended :
    (∀ (creator nonce : Nat) (cfg : TokenConfig), nonce < 2 ^ 63 →
      deriveTokenAddress creator nonce cfg = deriveAddressSpec creator nonce cfg) ∧
    (∀ (st : StateDB) (caller : Nat) (cfg : TokenConfig) (ro : Bool)
        (st1 st2 : StateDB) (a1 a2 : Nat),
      createAssetBackedToken st caller cfg ro = some (st1, a1) →
      createAssetBackedToken st caller cfg ro = some (st2, a2) → a1 = a2) := by
  constructor
  · intro creator nonce cfg h
    have h1 : nonceWordBytes nonce = wordBytes nonce := by
      unfold nonceWordBytes
      rw [if_pos (by omega : nonce % 2 ^ 64 < 2 ^ 63)]
      show wordBytes ((nonce % 2 ^ 64 : Nat) : Int).natAbs = wordBytes nonce
      congr 1
      omega
    unfold deriveTokenAddress deriveAddressSpec
    rw [h1]
  · intro st caller cfg ro st1 st2 a1 a2 h1 h2
    rw [h1] at h2
    exact congrArg Prod.snd (Option.some.inj h2)

/-- Witness for `derive_address_amended`: nonce 5 for the description part,
and the concrete successful creation `createRunA` (run twice) for the
determinism part. -/
theorem derive_address_amended_witness :
    deriveTokenAddress 1 5 cfgA = deriveAddressSpec 1 5 cfgA ∧
    createRunA.2 = createRunA.2 :=
  ⟨derive_address_amended.1 1 5 cfgA (by decide),
   derive_address_amended.2 emptyState 1 cfgA false createRunA.1 createRunA.1
     createRunA.2 createRunA.2 rfl rfl⟩

/-- C10: writing a pool with non-negative fields below `2^256` (and a
20-byte backing-asset address) and reading it back at the same token
address returns equal `totalBacking`, `totalSupply`, `burnedSupply` and
`backingAsset` fields. -/
theorem set_get_roundtrip (st : StateDB) (tok asset : Nat) (tb ts bs : Int)
    (ha : asset < 2 ^ 160) (htb0 : 0 ≤ tb) (htb1 : tb < 2 ^ 256)
    (hts0 : 0 ≤ ts) (hts1 : ts < 2 ^ 256) (hbs0 : 0 ≤ bs) (hbs1 : bs < 2 ^ 256) :
    (getBackingPool (setBackingPool st ⟨tok, asset, tb, ts, bs⟩) tok).totalBacking = tb ∧
    (getBackingPool (setBackingPool st ⟨tok, asset, tb, ts, bs⟩) tok).totalSupply = ts ∧
    (getBackingPool (setBackingPool st ⟨tok, asset, tb, ts, bs⟩) tok).burnedSupply = bs ∧
    (getBackingPool (setBackingPool st ⟨tok, asset, tb, ts, bs⟩) tok).backingAsset = asset := by
  refine ⟨?_, ?_, ?_, ?_⟩
  · have h := get_set_totalBacking st ⟨tok, asset, tb, ts, bs⟩
    simp only [bigToHashWord] at h
    rw [h]
    omega
  · have h := get_set_totalSupply st ⟨tok, asset, tb, ts, bs⟩
    simp only [bigToHashWord] at h
    rw [h]
    omega
  · have h := get_set_burnedSupply st ⟨tok, asset, tb, ts, bs⟩
    simp only [bigToHashWord] at h
    rw [h]
    omega
  · have h := get_set_backingAsset st ⟨tok, asset, tb, ts, bs⟩
    rw [h]
    show asset % 2 ^ 256 % 2 ^ 160 = asset
    omega

/-- Witness for `set_get_roundtrip`: the pool
`{token 7, asset 5, backing 1, supply 2, burned 0}` on the empty state. -/
theorem set_get_roundtrip_witness :
    (getBackingPool (setBackingPool emptyState ⟨7, 5, 1, 2, 0⟩) 7).totalBacking = 1 ∧
    (getBackingPool (setBackingPool emptyState ⟨7, 5, 1, 2, 0⟩) 7).totalSupply = 2 ∧
    (getBackingPool (setBackingPool emptyState ⟨7, 5, 1, 2, 0⟩) 7).burnedSupply = 0 ∧
    (getBackingPool (setBackingPool emptyState ⟨7, 5, 1, 2, 0⟩) 7).backingAsset = 5 :=
  set_get_roundtrip emptyState 7 5 1 2 0 (by decide) (by decide) (by decide)
    (by decide) (by decide) (by decide) (by decide)

/-- C2 (counterexample): the claim states that `burnedSupply ≤ totalSupply`
holds in every reachable pool state.  Creating a token with supply 1
(`createRunA`) and then burning 2 — an amount the dispatcher accepts without
any validation — stores `burnedSupply = 2 > totalSupply = 1`. -/
theorem burn_invariant_claim_false :
    ¬ (∀ (st : StateDB) (a : Nat), ReachablePool st a →
        (getBackingPool st a).burnedSupply ≤ (getBackingPool st a).totalSupply) := by
  intro h
  have h3 := h burnRun2.1 createRunA.2
    (ReachablePool.burned createRunA.1 createRunA.2 1 2 burnRun2.1 burnRun2.2
      (ReachablePool.created emptyState 1 cfgA createRunA.1 createRunA.2 rfl) rfl)
  exact absurd h3 (by decide)

/-- C2 (amended): creation establishes `burnedSupply = 0 ≤ totalSupply`
(provided the independently hashed fee-slot range of the new token does not
collide with its pool-slot range, which holds except with cryptographically
negligible probability and is checked concretely in the witness), and
`burnAndRecover` preserves `burnedSupply ≤ totalSupply` for every burn
amount that fits in the circulating supply; the dispatcher also accepts
larger amounts, which violate the invariant. -/
theorem burn_invariant_amended :
    (∀ (st : StateDB) (caller : Nat) (cfg : TokenConfig) (ro : Bool)
        (st' : StateDB) (a : Nat),
      createAssetBackedToken st caller cfg ro = some (st', a) →
      (∀ i, i < 13 → ∀ j, j < 4 → getFeeSlotBase a + i ≠ getSlotBase a + j) →
      (getBackingPool st' a).burnedSupply ≤ (getBackingPool st' a).totalSupply) ∧
    (∀ (st : StateDB) (caller token amount : Nat) (st' : StateDB) (out : Int),
      burnAndRecover st caller token amount false = some (st', out) →
      (getBackingPool st token).burnedSupply + (amount : Int) ≤
        (getBackingPool st token).totalSupply →
      (getBackingPool st' token).burnedSupply ≤ (getBackingPool st' token).totalSupply) := by
  constructor
  · intro st caller cfg ro st' a hrun hdisj
    obtain ⟨ha, hp⟩ := create_inv st caller cfg ro st' a hrun
    obtain ⟨hbs, htb, hts⟩ := hp hdisj
    rw [hbs, hts]
    positivity
  · intro st caller token amount st' out hrun hamt
    obtain ⟨hout, hbs, htb, hts⟩ := burnAndRecover_inv st caller token amount st' out hrun
    obtain ⟨htb0, hts0, hbs0⟩ := getBackingPool_nonneg st token
    obtain ⟨htb1, hts1, hbs1⟩ := getBackingPool_lt st token
    rw [hbs, hts]
    unfold bigToHashWord
    omega

/-- Witness for `burn_invariant_amended`: the concrete creation
`createRunA` (slot disjointness checked by evaluation) and the in-supply
burn `burnRun1`. -/
theorem burn_invariant_amended_witness :
    (getBackingPool createRunA.1 createRunA.2).burnedSupply ≤
      (getBackingPool createRunA.1 createRunA.2).totalSupply ∧
    (getBackingPool burnRun1.1 createRunA.2).burnedSupply ≤
      (getBackingPool burnRun1.1 createRunA.2).totalSupply :=
  ⟨burn_invariant_amended.1 emptyState 1 cfgA false createRunA.1 createRunA.2 rfl
     (by decide),
   burn_invariant_amended.2 createRunA.1 1 createRunA.2 1 burnRun1.1 burnRun1.2 rfl
     (by decide)⟩

/-- C3 (counterexample): the claim states that after every successful
`burnAndRecover(amount)` the stored pool satisfies
`totalBacking_after = totalBacking_before - backingForAmount(before, amount)`.
Burning 4 from the pool `{backing 1, supply 2, burned 0}` computes
redemption 2, drives the in-memory `totalBacking` to -1, and the store
persists the *absolute value* 1, not -1. -/
theorem burn_conservation_claim_false :
    burnAndRecover poolSt7 5 7 4 false = some (burn7x4.1, burn7x4.2) ∧
    (getBackingPool burn7x4.1 7).totalBacking ≠
      (getBackingPool poolSt7 7).totalBacking -
        calculateBackingForAmount (getBackingPool poolSt7 7) (4 : Int) := by
  constructor
  · rfl
  · decide

/-- C3 (amended): after a successful `burnAndRecover(amount)` with
`amount` at most the circulating supply (so the pre-burn redemption cannot
exceed `totalBacking` and no field wraps), the stored pool satisfies
exactly `totalBacking_after = totalBacking_before - backingForAmount(pool_before, amount)`
and `burnedSupply_after = burnedSupply_before + amount`, with the
redemption computed on the pre-burn pool and returned to the caller. -/
theorem burn_conservation_amended :
    ∀ (st : StateDB) (caller token amount : Nat) (st' : StateDB) (out : Int),
      burnAndRecover st caller token amount false = some (st', out) →
      (getBackingPool st token).burnedSupply + (amount : Int) ≤
        (getBackingPool st token).totalSupply →
      out = calculateBackingForAmount (getBackingPool st token) (amount : Int) ∧
      (getBackingPool st' token).totalBacking =
        (getBackingPool st token).totalBacking -
          calculateBackingForAmount (getBackingPool st token) (amount : Int) ∧
      (getBackingPool st' token).burnedSupply =
        (getBackingPool st token).burnedSupply + (amount : Int) := by
  intro st caller token amount st' out hrun hamt
  obtain ⟨hout, hbs, htb, hts⟩ := burnAndRecover_inv st caller token amount st' out hrun
  obtain ⟨hr0, hr1⟩ := calc_backing_bounds st token amount hamt
  obtain ⟨htb0, hts0, hbs0⟩ := getBackingPool_nonneg st token
  obtain ⟨htb1, hts1, hbs1⟩ := getBackingPool_lt st token
  subst hout
  refine ⟨rfl, ?_, ?_⟩
  · rw [htb]
    unfold bigToHashWord
    omega
  · rw [hbs]
    unfold bigToHashWord
    omega

/-- Witness for `burn_conservation_amended`: burning 1 from the pool
`{backing 1, supply 2, burned 0}` at token 7. -/
theorem burn_conservation_amended_witness :
    burn7x1.2 = calculateBackingForAmount (getBackingPool poolSt7 7) (1 : Int) ∧
    (getBackingPool burn7x1.1 7).totalBacking =
      (getBackingPool poolSt7 7).totalBacking -
        calculateBackingForAmount (getBackingPool poolSt7 7) (1 : Int) ∧
    (getBackingPool burn7x1.1 7).burnedSupply =
      (getBackingPool poolSt7 7).burnedSupply + (1 : Int) :=
  burn_conservation_amended poolSt7 5 7 1 burn7x1.1 burn7x1.2 rfl (by decide)
